import Mathlib

/-!
Verification development for the easyvk extension and dispatch engine.

The definitions below are a shallow embedding of the TypeScript sources:
  * `src/structures/api/api.ts` — response classification (`API.checkOnErrors`);
  * the `VK` facade class — plugin registry (`extend`, `setup`),
    exception-handler registry (`handleException`, `processHandlers`) and
    composer stack (`addComposer`, `use`, `compose`).

JavaScript dynamic values are modelled by the inductive `JSValue`; property
access on a non-object yields `undefined` (in the embedded code paths every such
access is guarded so that it never hits `null`/`undefined`, where JS would
throw a TypeError).  Strict equality (`===`) against the string and number
configuration constants is modelled by `jsEqStr` / `jsEqNum`.
-/

namespace EasyVK

/-- Model of a JavaScript runtime value, sufficient for the response bodies
and option objects handled by the library. -/
inductive JSValue where
  | undefined
  | null
  | bool (b : Bool)
  | num (n : Int)
  | str (s : String)
  | obj (fields : List (String × JSValue))

/-- Property access: `v[k]`.  Objects look the key up in their field list;
every other value yields `undefined` for the properties the library reads. -/
def jsGet : JSValue → String → JSValue
  | .obj fields, k =>
      match fields.find? (fun f => f.1 == k) with
      | some f => f.2
      | none => .undefined
  | _, _ => .undefined

/-- JavaScript truthiness. -/
def jsTruthy : JSValue → Bool
  | .undefined => false
  | .null => false
  | .bool b => b
  | .num n => n != 0
  | .str s => s != ""
  | .obj _ => true

/-- JavaScript `a || b`. -/
def jsOr (a b : JSValue) : JSValue :=
  if jsTruthy a then a else b

/-- Strict equality `v === s` against a string constant: only a string value
with the same characters compares equal. -/
def jsEqStr : JSValue → String → Bool
  | .str t, s => t == s
  | _, _ => false

/-- Strict equality `v === n` against a number constant. -/
def jsEqNum : JSValue → Int → Bool
  | .num m, n => m == n
  | _, _ => false

/-- The `typeof res === "string"` test. -/
def jsIsString : JSValue → Bool
  | .str _ => true
  | _ => false

/-- The `errors` section of the default `IVKOptions` of the `VK` class. -/
structure ErrorsConfig where
  captchaError : String
  captchaErrorCode : Int
  validationError : String
  redirectErrorCode : Int

/-- Default error configuration from the `VK` class options. -/
def defaultErrors : ErrorsConfig :=
  { captchaError := "need_captcha"
    captchaErrorCode := 14
    validationError := "need_validation"
    redirectErrorCode := 17 }

/-- The structured failures thrown by `API.checkOnErrors`.  Positional data
mirrors the exception constructor calls; the request/response diagnostic
passthrough carried by every exception is not inspected anywhere and is
omitted.  Field order of the data constructors: extracted message, extracted
code, extracted error type, then the category-specific fields. -/
inductive APIError where
  | requestParse (message : String)
  | captcha (message code errType captchaSid captchaImg : JSValue)
  | haveBan (message code errType banInfo redirectUri : JSValue)
  | twoFactor (message code errType validationType phoneMask redirectUri validationSid : JSValue)
  | needValidation (message code errType : JSValue)
  | redirectURI (message code errType redirectUri : JSValue)
  | api (message code errType : JSValue)

/-- The human message carried by a structured failure. -/
def messageOf : APIError → JSValue
  | .requestParse m => .str m
  | .captcha m _ _ _ _ => m
  | .haveBan m _ _ _ _ => m
  | .twoFactor m _ _ _ _ _ _ => m
  | .needValidation m _ _ => m
  | .redirectURI m _ _ _ => m
  | .api m _ _ => m

/-- Embedding of `API.checkOnErrors` from `src/structures/api/api.ts`:
`some e` means the call throws the exception `e`; `none` means it returns
normally (no error marker in the body). -/
def checkOnErrors (cfg : ErrorsConfig) (res : JSValue) : Option APIError :=
  if jsIsString res then
    some (.requestParse "Server responded with bad data (not a json)")
  else if jsTruthy (jsGet res "error") then
    let e := jsGet res "error"
    -- let errorCode, errorMessage, errorType (all start undefined)
    let base :=
      if jsTruthy e && jsTruthy (jsGet e "message") then
        (jsGet e "error_code", jsGet e "message", jsOr (jsGet e "error_type") (.str ""))
      else if jsTruthy e && jsTruthy (jsGet e "error_msg") then
        (jsGet e "error_code", jsGet e "error_msg", jsOr (jsGet e "error_type") (.str ""))
      else if jsTruthy (jsGet res "error_description") then
        (jsGet res "error_code", jsGet res "error_description", jsOr (jsGet res "error_type") (.str ""))
      else (.undefined, .undefined, .undefined)
    -- the separate (not else-chained) `if (res.error && res.error_description)`
    let triple :=
      if jsTruthy e && jsTruthy (jsGet res "error_description") then
        (e, jsGet res "error_description", jsOr (jsGet res "error_type") (.str ""))
      else base
    let code := triple.1
    let message := triple.2.1
    let errType := triple.2.2
    some (
      if jsEqStr e cfg.captchaError || jsEqNum (jsGet e "error_code") cfg.captchaErrorCode then
        .captcha message code errType (jsGet e "captcha_sid") (jsGet e "captcha_img")
      else if jsEqStr e cfg.validationError then
        if jsTruthy (jsGet res "ban_info") then
          .haveBan message code errType (jsGet res "ban_info")
            (jsOr (jsGet res "redirect_uri") .null)
        else if jsTruthy (jsGet res "validation_type") then
          .twoFactor message code errType (jsGet res "validation_type")
            (jsOr (jsGet res "phone_mask") (.str ""))
            (jsOr (jsGet res "redirect_uri") (.str ""))
            (jsOr (jsGet res "validation_sid") (.str ""))
        else .needValidation message code errType
      else if jsEqNum (jsGet e "error_code") cfg.redirectErrorCode then
        .redirectURI message code errType (jsGet res "redirect_uri")
      else .api message code errType)
  else none

/-- The response body of the C2 scenario: a top-level captcha error marker
with top-level `captcha_sid` and `captcha_img` fields. -/
def captchaMarkerBody : JSValue :=
  .obj [("error", .str "need_captcha"), ("captcha_sid", .str "1"), ("captcha_img", .str "url")]

/-- A captcha response whose data sits inside a nested error object. -/
def captchaNestedBody : JSValue :=
  .obj [("error", .obj [("error_code", .num 14), ("error_msg", .str "Captcha needed"),
    ("captcha_sid", .str "1"), ("captcha_img", .str "url")])]

/-- C2 counterexample: on the body with the top-level captcha marker the
classifier does throw the captcha failure, but the sid it carries is
`undefined`, not the string `"1"` the claim asserts — the code reads
`captcha_sid` off the error marker itself (here a plain string). -/
theorem captchaSid_counterexample :
    checkOnErrors defaultErrors captchaMarkerBody =
      some (.captcha .undefined .undefined .undefined .undefined .undefined) ∧
    JSValue.undefined ≠ JSValue.str "1" :=
  ⟨rfl, fun h => nomatch h⟩

/-- C2 (amended): the body with the top-level captcha marker raises the
captcha failure with sid and image `undefined` (they are read from the
nested error object, absent here); when the captcha data does sit inside a
nested error object, sid `"1"` and image `"url"` are carried. -/
theorem captchaSid_amended :
    checkOnErrors defaultErrors captchaMarkerBody =
      some (.captcha .undefined .undefined .undefined .undefined .undefined) ∧
    checkOnErrors defaultErrors captchaNestedBody =
      some (.captcha (.str "Captcha needed") (.num 14) (.str "") (.str "1") (.str "url")) :=
  ⟨rfl, rfl⟩

/-- C5: whenever the body has a truthy error marker carrying a nested
message (`message` or `error_msg`) and simultaneously a truthy top-level
`error_description`, the thrown failure's message is the top-level
description — the separate override assignment wins. -/
theorem error_description_wins (cfg : ErrorsConfig) (res : JSValue)
    (hs : jsIsString res = false)
    (he : jsTruthy (jsGet res "error") = true)
    (_hn : jsTruthy (jsGet (jsGet res "error") "message") = true ∨
          jsTruthy (jsGet (jsGet res "error") "error_msg") = true)
    (hd : jsTruthy (jsGet res "error_description") = true) :
    ∃ err, checkOnErrors cfg res = some err ∧
      messageOf err = jsGet res "error_description" := by
  unfold checkOnErrors
  rw [hs, he, hd]
  simp only [Bool.false_eq_true, if_false, if_true, Bool.and_self, Bool.and_true]
  rw [he]
  simp only [if_true]
  split
  · exact ⟨_, rfl, rfl⟩
  · split
    · split
      · exact ⟨_, rfl, rfl⟩
      · split
        · exact ⟨_, rfl, rfl⟩
        · exact ⟨_, rfl, rfl⟩
    · split
      · exact ⟨_, rfl, rfl⟩
      · exact ⟨_, rfl, rfl⟩

/-- C5 witness: a concrete body with both a nested `error_msg` and a
top-level `error_description`; the classified failure carries the top-level
description. -/
theorem error_description_wins_witness :
    ∃ err,
      checkOnErrors defaultErrors
        (.obj [("error", .obj [("error_msg", .str "nested")]),
               ("error_description", .str "top")]) = some err ∧
      messageOf err =
        jsGet (.obj [("error", .obj [("error_msg", .str "nested")]),
               ("error_description", .str "top")]) "error_description" :=
  error_description_wins defaultErrors
    (.obj [("error", .obj [("error_msg", .str "nested")]),
           ("error_description", .str "top")])
    rfl rfl (Or.inr rfl) rfl

/-! ## Exception handler registry (`VK.handleException` / `VK.processHandlers`)

A resolve pass fixes the error instance and the static exception type, so a
registered handler is modelled extensionally by what it returns for them:
either the very error instance it received (`sameError`, the JS comparison
`handlerReturned !== error` is reference equality) or some other value. -/

/-- What a handler call returns during one resolve pass. -/
inductive HandlerRet where
  | sameError
  | returns (v : JSValue)

/-- State of the handler registry: the `handlersExceptions` insertion-ordered
set of registered categories and the `handlers` map from category to its
handler list.  `Cat` stands for the exception constructors used as keys. -/
structure HandlerRegistry (Cat : Type) where
  handlersExceptions : List Cat
  handlers : List (Cat × List HandlerRet)

/-- `VK.exceptionHandlers`: the handler list of a category, `[]` if absent. -/
def exceptionHandlers [DecidableEq Cat] (r : HandlerRegistry Cat) (c : Cat) :
    List HandlerRet :=
  match r.handlers.find? (fun p => decide (p.1 = c)) with
  | some p => p.2
  | none => []

/-- `Map.set` / `WeakMap.set`: replace the value under an existing key,
otherwise append the new entry. -/
def mapSet [DecidableEq κ] (m : List (κ × β)) (k : κ) (v : β) :
    List (κ × β) :=
  if m.any (fun p => decide (p.1 = k)) then
    m.map (fun p => if p.1 = k then (k, v) else p)
  else m ++ [(k, v)]

/-- `VK.handleException`: record the category in the known-categories set and
append the handler to its list. -/
def handleException [DecidableEq Cat] (r : HandlerRegistry Cat) (c : Cat)
    (h : HandlerRet) : HandlerRegistry Cat :=
  { handlersExceptions :=
      if c ∈ r.handlersExceptions then r.handlersExceptions
      else r.handlersExceptions ++ [c]
    handlers := mapSet r.handlers c (exceptionHandlers r c ++ [h]) }

/-- Whether the inner handler loop of a category sets `handled`: some handler
returns a value other than the error instance it received. -/
def catHandled : List HandlerRet → Bool
  | [] => false
  | .sameError :: t => catHandled t
  | .returns _ :: _ => true

/-- The value the inner loop of a category passes to `resolve`, if any: the
first altered return, provided it is truthy. -/
def catResolve : List HandlerRet → Option JSValue
  | [] => none
  | .sameError :: t => catResolve t
  | .returns v :: _ => if jsTruthy v then some v else none

/-- How many handlers of a category's list the inner loop invokes: all of
them up to and including the first one that returns an altered value (the
`break`). -/
def catInvoked : List HandlerRet → Nat
  | [] => 0
  | .sameError :: t => 1 + catInvoked t
  | .returns _ :: _ => 1

/-- First `resolve` call wins: a promise ignores later resolutions. -/
def firstSome (a b : Option JSValue) : Option JSValue :=
  match a with
  | some w => some w
  | none => b

/-- The category-matching test of the outer loop:
`exceptionTypeHandled.isPrototypeOf(exceptionType) || exceptionTypeHandled === exceptionType`.
`proto c st` models `c.isPrototypeOf(st)` on the live constructors. -/
def matchesB [DecidableEq Cat] (proto : Cat → Cat → Bool) (c st : Cat) : Bool :=
  proto c st || decide (c = st)

/-- Observable outcome of one pass of the outer loop of `processHandlers`:
the `handled` flag, the value of the first `resolve` call (if any), and the
chronological trace of handler invocations as (category, handler index). -/
structure LoopOut (Cat : Type) where
  handled : Bool
  result : Option JSValue
  trace : List (Cat × Nat)

/-- The outer loop of `VK.processHandlers` over the known categories.  A
category matching the static type runs its handlers up to the first altered
return (`break` leaves only the inner loop); `handled` and the pending
resolution are threaded through. -/
def processLoop [DecidableEq Cat] (proto : Cat → Cat → Bool)
    (tbl : Cat → List HandlerRet) (st : Cat) :
    List Cat → Bool → Option JSValue → LoopOut Cat
  | [], handled, result => ⟨handled, result, []⟩
  | c :: rest, handled, result =>
    if matchesB proto c st then
      let hs := tbl c
      let out := processLoop proto tbl st rest (handled || catHandled hs)
        (firstSome result (catResolve hs))
      ⟨out.handled, out.result,
        (List.range (catInvoked hs)).map (fun i => (c, i)) ++ out.trace⟩
    else processLoop proto tbl st rest handled result

/-- How the promise returned by `VK.processHandlers` settles. -/
inductive Settle where
  | resolved (v : JSValue)
  | rejected
  | pending

/-- How the promise settles given the loop outcome: the first `resolve` call
wins; `reject(error)` fires only when `handled` stayed false; with `handled`
true but no resolution the promise stays pending forever. -/
def settleOf (out : LoopOut Cat) : Settle :=
  match out.result with
  | some v => .resolved v
  | none => if out.handled then .pending else .rejected

/-- `VK.processHandlers`: walk every registered category; resolve with the
first truthy altered handler return; reject with the original error when no
handler altered it; otherwise the promise never settles. -/
def processHandlers [DecidableEq Cat] (r : HandlerRegistry Cat)
    (proto : Cat → Cat → Bool) (st : Cat) : Settle :=
  settleOf (processLoop proto (exceptionHandlers r) st r.handlersExceptions false none)

/-- The handler invocations performed by one `VK.processHandlers` pass. -/
def processTrace [DecidableEq Cat] (r : HandlerRegistry Cat)
    (proto : Cat → Cat → Bool) (st : Cat) : List (Cat × Nat) :=
  (processLoop proto (exceptionHandlers r) st r.handlersExceptions false none).trace

lemma firstSome_none (a : Option JSValue) : firstSome a none = a := by
  cases a <;> rfl

lemma catHandled_eq_false {hs : List HandlerRet}
    (h : ∀ x ∈ hs, x = HandlerRet.sameError) : catHandled hs = false := by
  induction hs with
  | nil => rfl
  | cons x t ih =>
    have hx := h x (List.mem_cons_self x t)
    subst hx
    exact ih fun y hy => h y (List.mem_cons_of_mem _ hy)

lemma catResolve_eq_none {hs : List HandlerRet} (h : catHandled hs = false) :
    catResolve hs = none := by
  induction hs with
  | nil => rfl
  | cons x t ih =>
    cases x with
    | sameError => exact ih h
    | returns v => simp [catHandled] at h

lemma catInvoked_pos {hs : List HandlerRet} (h : hs ≠ []) : 0 < catInvoked hs := by
  cases hs with
  | nil => exact absurd rfl h
  | cons x t => cases x <;> simp [catInvoked]

lemma loop_const [DecidableEq Cat] (proto : Cat → Cat → Bool)
    (tbl : Cat → List HandlerRet) (st : Cat) :
    ∀ (cats : List Cat) (hd : Bool) (res : Option JSValue),
      (∀ c ∈ cats, matchesB proto c st = true → catHandled (tbl c) = false) →
      (processLoop proto tbl st cats hd res).handled = hd ∧
      (processLoop proto tbl st cats hd res).result = res := by
  intro cats
  induction cats with
  | nil => intro hd res _; exact ⟨rfl, rfl⟩
  | cons a rest ih =>
    intro hd res hall
    by_cases hma : matchesB proto a st = true
    · have hca : catHandled (tbl a) = false :=
        hall a (List.mem_cons_self a rest) hma
      have hcr : catResolve (tbl a) = none := catResolve_eq_none hca
      simp only [processLoop, hma, if_true, hca, Bool.or_false, hcr, firstSome_none]
      exact ih hd res fun c hc hm => hall c (List.mem_cons_of_mem _ hc) hm
    · simp only [processLoop, hma, if_false]
      exact ih hd res fun c hc hm => hall c (List.mem_cons_of_mem _ hc) hm

lemma mem_trace [DecidableEq Cat] (proto : Cat → Cat → Bool)
    (tbl : Cat → List HandlerRet) (st : Cat) :
    ∀ (cats : List Cat) (hd : Bool) (res : Option JSValue) (c : Cat),
      c ∈ cats → matchesB proto c st = true → tbl c ≠ [] →
      (c, 0) ∈ (processLoop proto tbl st cats hd res).trace := by
  intro cats
  induction cats with
  | nil => intro hd res c hc; cases hc
  | cons a rest ih =>
    intro hd res c hc hm hne
    rcases List.mem_cons.mp hc with h1 | h2
    · subst h1
      simp only [processLoop, hm, if_true]
      apply List.mem_append.mpr
      left
      exact List.mem_map.mpr ⟨0, List.mem_range.mpr (catInvoked_pos hne), rfl⟩
    · by_cases hma : matchesB proto a st = true
      · simp only [processLoop, hma, if_true]
        exact List.mem_append.mpr (Or.inr (ih _ _ c h2 hm hne))
      · simp only [processLoop, hma, if_false]
        exact ih _ _ c h2 hm hne

lemma loop_resolved [DecidableEq Cat] (proto : Cat → Cat → Bool)
    (tbl : Cat → List HandlerRet) (st : Cat) :
    ∀ (cats : List Cat) (hd : Bool) (res : Option JSValue) (v : JSValue),
      (processLoop proto tbl st cats hd res).result = some v →
      res = some v ∨
        ∃ c, c ∈ cats ∧ matchesB proto c st = true ∧ catResolve (tbl c) = some v := by
  intro cats
  induction cats with
  | nil => intro hd res v h; exact Or.inl h
  | cons a rest ih =>
    intro hd res v h
    by_cases hma : matchesB proto a st = true
    · simp only [processLoop, hma, if_true] at h
      rcases ih _ _ v h with h1 | ⟨c, hc, hm, hr⟩
      · cases res with
        | some w => exact Or.inl (by simpa [firstSome] using h1)
        | none =>
          exact Or.inr ⟨a, List.mem_cons_self a rest, hma,
            by simpa [firstSome] using h1⟩
      · exact Or.inr ⟨c, List.mem_cons_of_mem _ hc, hm, hr⟩
    · simp only [processLoop, hma, if_false] at h
      rcases ih _ _ v h with h1 | ⟨c, hc, hm, hr⟩
      · exact Or.inl h1
      · exact Or.inr ⟨c, List.mem_cons_of_mem _ hc, hm, hr⟩

lemma find?_map_update [DecidableEq κ] (c : κ) (v : β) :
    ∀ m : List (κ × β),
      m.any (fun p => decide (p.1 = c)) = true →
      (m.map (fun p => if p.1 = c then (c, v) else p)).find?
        (fun p => decide (p.1 = c)) = some (c, v) := by
  intro m
  induction m with
  | nil => intro h; cases h
  | cons x t ih =>
    intro h
    by_cases hx : x.1 = c
    · simp [hx]
    · have ht : t.any (fun p => decide (p.1 = c)) = true := by
        simpa [List.any_cons, hx] using h
      simp [hx, ih ht]

lemma find?_append_new [DecidableEq κ] (c : κ) (v : β) :
    ∀ m : List (κ × β),
      m.any (fun p => decide (p.1 = c)) = false →
      (m ++ [(c, v)]).find? (fun p => decide (p.1 = c)) = some (c, v) := by
  intro m
  induction m with
  | nil => intro _; simp
  | cons x t ih =>
    intro h
    have hx : ¬ x.1 = c := by
      intro hx
      simp [List.any_cons, hx] at h
    have ht : t.any (fun p => decide (p.1 = c)) = false := by
      simpa [List.any_cons, hx] using h
    simp [hx, ih ht]

lemma find?_mapSet_self [DecidableEq κ] (m : List (κ × β)) (c : κ) (v : β) :
    (mapSet m c v).find? (fun p => decide (p.1 = c)) = some (c, v) := by
  unfold mapSet
  split
  · exact find?_map_update c v m (by assumption)
  · rename_i hfalse
    exact find?_append_new c v m (Bool.eq_false_iff.mpr hfalse)

lemma exceptionHandlers_handleException_self [DecidableEq Cat]
    (r : HandlerRegistry Cat) (c : Cat) (h : HandlerRet) :
    exceptionHandlers (handleException r c h) c = exceptionHandlers r c ++ [h] := by
  unfold handleException exceptionHandlers
  rw [find?_mapSet_self]

lemma mem_handlersExceptions_handleException [DecidableEq Cat]
    (r : HandlerRegistry Cat) (c : Cat) (h : HandlerRet) :
    c ∈ (handleException r c h).handlersExceptions := by
  unfold handleException
  dsimp only
  split
  · assumption
  · exact List.mem_append.mpr (Or.inr (List.mem_singleton.mpr rfl))

lemma settleOf_eq_resolved {Cat : Type} {out : LoopOut Cat} {v : JSValue}
    (h : settleOf out = Settle.resolved v) : out.result = some v := by
  unfold settleOf at h
  cases hres : out.result with
  | none =>
    rw [hres] at h
    by_cases hh : out.handled = true <;> simp [hh] at h
  | some w =>
    rw [hres] at h
    cases h
    rfl

/-- C3 counterexample: two categories (0 and 1), both ancestors of the static
type 2, each with one handler returning an altered value.  The handler of
category 0 alters (and resolves) the error, yet the handler of the later
matching category 1 is still invoked — the trace is `[(0,0), (1,0)]`, not
`[(0,0)]` — contradicting "resolution stops: no later handler of any matching
category runs". -/
theorem processHandlers_stop_counterexample :
    processTrace
      (handleException (handleException (⟨[], []⟩ : HandlerRegistry Nat) 0
        (.returns (.str "v"))) 1 (.returns (.str "w")))
      (fun c st => decide (st = 2) && (decide (c = 0) || decide (c = 1))) 2 =
      [(0, 0), (1, 0)] ∧
    processHandlers
      (handleException (handleException (⟨[], []⟩ : HandlerRegistry Nat) 0
        (.returns (.str "v"))) 1 (.returns (.str "w")))
      (fun c st => decide (st = 2) && (decide (c = 0) || decide (c = 1))) 2 =
      .resolved (.str "v") :=
  ⟨rfl, rfl⟩

/-- C3 (amended): an altered handler return stops only the handlers of its
own category; later matching categories still run their handlers.  Precisely:
(a) if every handler of every matching category returns the same error
instance, the promise rejects with the original error; (b) every matching
category with a non-empty handler list has its first handler invoked,
regardless of what earlier categories returned; (c) a resolved value is the
first-altered truthy return of some matching category. -/
theorem processHandlers_resolution {Cat : Type} [DecidableEq Cat]
    (r : HandlerRegistry Cat) (proto : Cat → Cat → Bool) (st : Cat) :
    ((∀ c ∈ r.handlersExceptions, matchesB proto c st = true →
        ∀ h ∈ exceptionHandlers r c, h = HandlerRet.sameError) →
      processHandlers r proto st = .rejected)
    ∧ (∀ c ∈ r.handlersExceptions, matchesB proto c st = true →
        exceptionHandlers r c ≠ [] → (c, 0) ∈ processTrace r proto st)
    ∧ (∀ v, processHandlers r proto st = .resolved v →
        ∃ c, c ∈ r.handlersExceptions ∧ matchesB proto c st = true ∧
          catResolve (exceptionHandlers r c) = some v) := by
  refine ⟨?_, ?_, ?_⟩
  · intro hall
    have h3 : ∀ c ∈ r.handlersExceptions, matchesB proto c st = true →
        catHandled (exceptionHandlers r c) = false := fun c hc hm =>
      catHandled_eq_false (hall c hc hm)
    have hc := loop_const proto (exceptionHandlers r) st r.handlersExceptions false none h3
    unfold processHandlers settleOf
    rw [hc.2, hc.1]
    rfl
  · intro c hc hm hne
    exact mem_trace proto _ st _ false none c hc hm hne
  · intro v hv
    unfold processHandlers at hv
    have hres := settleOf_eq_resolved hv
    rcases loop_resolved proto _ st _ false none v hres with h1 | ⟨c, hcm, hm, hr⟩
    · cases h1
    · exact ⟨c, hcm, hm, hr⟩

/-- C3 witness: a single category, one handler returning the same error
instance — the promise rejects with the original error. -/
theorem processHandlers_resolution_witness :
    processHandlers (handleException (⟨[], []⟩ : HandlerRegistry Nat) 0 .sameError)
      (fun _ _ => false) 0 = .rejected :=
  (processHandlers_resolution
      (handleException (⟨[], []⟩ : HandlerRegistry Nat) 0 .sameError)
      (fun _ _ => false) 0).1 (by
    intro c hc _ h hh
    have hl : (handleException (⟨[], []⟩ : HandlerRegistry Nat) 0
        HandlerRet.sameError).handlersExceptions = [0] := rfl
    rw [hl] at hc
    have hc0 : c = 0 := by simpa using hc
    subst hc0
    have he : exceptionHandlers
        (handleException (⟨[], []⟩ : HandlerRegistry Nat) 0 HandlerRet.sameError) 0 =
        [HandlerRet.sameError] := rfl
    rw [he] at hh
    simpa using hh)

/-- C6: a handler registered for a base category is invoked when resolving an
error whose static type is a declared subtype of it (`proto B D = true`
models `B.isPrototypeOf(D)`); `hclean` says no handler was previously
registered for the base category, so the new handler sits at index 0. -/
theorem base_handler_invoked {Cat : Type} [DecidableEq Cat]
    (r : HandlerRegistry Cat) (proto : Cat → Cat → Bool) (B D : Cat)
    (h : HandlerRet) (hp : proto B D = true)
    (hclean : exceptionHandlers r B = []) :
    (B, 0) ∈ processTrace (handleException r B h) proto D := by
  unfold processTrace
  apply mem_trace
  · exact mem_handlersExceptions_handleException r B h
  · simp [matchesB, hp]
  · rw [exceptionHandlers_handleException_self, hclean]
    simp

/-- C6 witness: category 0 declared an ancestor of static type 1; the handler
registered for 0 is invoked when resolving an error of static type 1. -/
theorem base_handler_invoked_witness :
    ((0, 0) : Nat × Nat) ∈ processTrace
      (handleException (⟨[], []⟩ : HandlerRegistry Nat) 0 .sameError)
      (fun b d => decide (b = 0) && decide (d = 1)) 1 :=
  base_handler_invoked (⟨[], []⟩ : HandlerRegistry Nat)
    (fun b d => decide (b = 0) && decide (d = 1)) 0 1 .sameError rfl rfl

/-- C9: a matching handler that returns a falsy value (`null`) different
from the error instance marks the failure handled, so the error is never
re-raised, but no resolved value is produced either — the promise returned
by `processHandlers` never settles. -/
theorem processHandlers_never_settles :
    processHandlers
      (handleException (⟨[], []⟩ : HandlerRegistry Nat) 0 (.returns .null))
      (fun _ _ => false) 0 = .pending :=
  rfl

/-! ## Plugin registry (`VK.extend` / `VK.setup`)

A plugin instance is modelled by its descriptor data (name, requirements,
`setupAfter`); `onEnable` invocations are recorded as an event log of
(plugin name, options object) pairs. -/

/-- The descriptor data of a constructed plugin instance. -/
structure PluginDescriptor where
  name : String
  requirements : List String
  setupAfter : Option String

/-- An entry of `pluginsQueue`: the `{ plugin, options, name }` record built
by `VK.extend`. -/
structure QueuedPlugin where
  descriptor : PluginDescriptor
  options : JSValue

/-- An entry of the `pluginsQueueNames` array.  Normal pushes put the name
string in; the `setupAfter` splice path of `VK.extend` inserts the whole
`newPlugin` record instead of its name, so the array is heterogeneous. -/
inductive QueueNameEntry where
  | name (s : String)
  | spliced (q : QueuedPlugin)

/-- JS `===` between a `pluginsQueueNames` entry and a name string: a string
entry compares by characters, an object entry is never strictly equal to a
string. -/
def nameEntryEq (e : QueueNameEntry) (n : String) : Bool :=
  match e with
  | .name s => s == n
  | .spliced _ => false

/-- JS `===` between a `pluginsQueue` entry (an object) and the `setupAfter`
name string: an object is never strictly equal to a string, so
`pluginsQueue.indexOf(plugIn.setupAfter)` can never find anything. -/
def queuedEqStr (_ : QueuedPlugin) (_ : String) : Bool := false

/-- The plugin-related state of the `VK` facade. -/
structure VKPlugins where
  pluginsQueue : List QueuedPlugin
  pluginsQueueNames : List QueueNameEntry
  plugins : List String
  queuePromises : List (String × JSValue)
  enabled : List (String × JSValue)

/-- `VK.hasPlugin`: the name is in the installed list. -/
def hasPlugin (s : VKPlugins) (n : String) : Bool :=
  s.plugins.contains n

/-- `pluginsQueueNames.indexOf(n) !== -1` (also `VK.pluginInQueue`). -/
def nameInQueue (s : VKPlugins) (n : String) : Bool :=
  s.pluginsQueueNames.any (fun e => nameEntryEq e n)

/-- Truthiness of the `setupAfter` string property: defined and non-empty. -/
def setupAfterTruthy : Option String → Bool
  | some s => s != ""
  | none => false

/-- The registration errors thrown by `VK.extend`. -/
inductive ExtendError where
  | mustHaveUniqueName
  | alreadyInstalled
  | requiresPlugin (missing : String)

/-- The requirements loop of `VK.extend`: skip a requirement that is
installed or queued; throw on the first one that is neither. -/
def checkRequirements (s : VKPlugins) : List String → Option ExtendError
  | [] => none
  | req :: rest =>
    if hasPlugin s req then checkRequirements s rest
    else if nameInQueue s req then checkRequirements s rest
    else some (.requiresPlugin req)

/-- `array.splice(i, 0, a)`: insert `a` at index `i`. -/
def spliceInsert (l : List α) (i : Nat) (a : α) : List α :=
  l.take i ++ a :: l.drop i

/-- Embedding of `VK.extend`.  Returns the facade state after the call
together with the thrown registration error, if any; a throw happens before
any mutation, so the state is returned as it stood at the throw. -/
def extend (s : VKPlugins) (p : PluginDescriptor) (pluginOptions : JSValue)
    (addInQueue : Bool) : VKPlugins × Option ExtendError :=
  if p.name = "" ∨ p.name = "defaultPlugin" then (s, some .mustHaveUniqueName)
  else if hasPlugin s p.name then (s, some .alreadyInstalled)
  else
    let newPlugin : QueuedPlugin := ⟨p, pluginOptions⟩
    match checkRequirements s p.requirements with
    | some e => (s, some e)
    | none =>
      let s1 :=
        if setupAfterTruthy p.setupAfter && addInQueue then
          match p.setupAfter with
          | some sa =>
            match s.pluginsQueue.findIdx? (fun q => queuedEqStr q sa) with
            | some i =>
              { s with
                pluginsQueue := spliceInsert s.pluginsQueue i newPlugin,
                pluginsQueueNames :=
                  spliceInsert s.pluginsQueueNames i (.spliced newPlugin) }
            | none => s
          | none => s
        else s
      let s2 :=
        if !setupAfterTruthy p.setupAfter && addInQueue then
          { s1 with
            pluginsQueue := s1.pluginsQueue ++ [newPlugin],
            pluginsQueueNames := s1.pluginsQueueNames ++ [.name p.name] }
        else s1
      if !nameInQueue s2 p.name && addInQueue then
        ({ s2 with
            pluginsQueue := s2.pluginsQueue ++ [newPlugin],
            pluginsQueueNames := s2.pluginsQueueNames ++ [.name p.name] }, none)
      else if !addInQueue then
        ({ s2 with
            plugins := s2.plugins ++ [p.name],
            queuePromises := s2.queuePromises ++ [(p.name, pluginOptions)],
            enabled := s2.enabled ++ [(p.name, pluginOptions)] }, none)
      else (s2, none)

/-- Fields of an object value (a non-object spreads no fields here). -/
def jsFields : JSValue → List (String × JSValue)
  | .obj fs => fs
  | _ => []

/-- Object spread `{...a, ...b}`: the keys of `a` in order, values overridden
by `b` where present, followed by the keys only `b` has. -/
def jsSpread2 (a b : JSValue) : JSValue :=
  .obj ((jsFields a).map (fun f =>
      match (jsFields b).find? (fun g => g.1 == f.1) with
      | some g => (f.1, g.2)
      | none => f) ++
    (jsFields b).filter (fun g => (jsFields a).all (fun f => f.1 != g.1)))

/-- The options object `VK.setup` passes to a queued plugin's `onEnable`:
`{...options, ...(globalPluginOptions[plugin.name] || \x7b\x7d)}`. -/
def enableArg (g : JSValue) (q : QueuedPlugin) : JSValue :=
  jsSpread2 q.options (jsOr (jsGet g q.descriptor.name) (.obj []))

/-- One iteration of the `initers.forEach` body of `VK.setup`: mark the
plugin installed and invoke its `onEnable` with the merged options. -/
def setupStep (g : JSValue) (st : VKPlugins) (q : QueuedPlugin) : VKPlugins :=
  { st with
    plugins := st.plugins ++ [q.descriptor.name],
    enabled := st.enabled ++ [(q.descriptor.name, enableArg g q)] }

/-- Embedding of `VK.setup`: if the queue is empty return unchanged,
otherwise run the `forEach` over a snapshot of the queue.  The queue itself
is never cleared. -/
def setup (s : VKPlugins) (g : JSValue) : VKPlugins :=
  if s.pluginsQueue.isEmpty then s
  else s.pluginsQueue.foldl (setupStep g) s

/-- Queue of the C1 scenario: the plugin named `X` already queued at
position 0. -/
def stateC1 : VKPlugins :=
  ⟨[⟨⟨"X", [], none⟩, .obj []⟩], [.name "X"], [], [], []⟩

/-- The C1 plugin: setupAfter targets the queued `X`. -/
def afterXDesc : PluginDescriptor := ⟨"P", [], some "X"⟩

/-- C1: registering (deferred) a plugin with `setupAfter = "X"` while `X` is
queued at position 0 appends the new plugin at the end of the queue —
position 1, after `X` — because `pluginsQueue.indexOf(setupAfter)` compares
queued descriptor objects against a name string and never finds the target,
so the splice branch never fires.  The claim (and the spec) demand position 0
with `X` shifted to 1. -/
theorem extend_setupAfter_appends :
    (extend stateC1 afterXDesc (.obj []) true).2 = none ∧
    (extend stateC1 afterXDesc (.obj []) true).1.pluginsQueue.map
      (fun q => q.descriptor.name) = ["X", "P"] ∧
    (extend stateC1 afterXDesc (.obj []) true).1.pluginsQueueNames =
      [.name "X", .name "P"] :=
  ⟨rfl, rfl, rfl⟩

/-- C4 counterexample: with the plugin named `A` queued (registered
deferred, not yet installed), a second deferred registration of the name `A`
does not fail — and the queue is not as it was either: a duplicate entry for
`A` is appended, because the duplicate guard `hasPlugin` consults only the
installed list, never the queue. -/
theorem extend_queued_duplicate_counterexample :
    (extend ⟨[⟨⟨"A", [], none⟩, .obj []⟩], [.name "A"], [], [], []⟩
      ⟨"A", [], none⟩ (.obj []) true).2 = none ∧
    (extend ⟨[⟨⟨"A", [], none⟩, .obj []⟩], [.name "A"], [], [], []⟩
      ⟨"A", [], none⟩ (.obj []) true).1.pluginsQueueNames =
      [.name "A", .name "A"] :=
  ⟨rfl, rfl⟩

/-- The success path of `VK.extend` for a deferred registration with no
truthy `setupAfter`: the descriptor is appended once to the queue and its
name once to the names array, and no error is thrown. -/
lemma extend_append (s : VKPlugins) (p : PluginDescriptor) (o : JSValue)
    (hname : ¬(p.name = "" ∨ p.name = "defaultPlugin"))
    (hinst : hasPlugin s p.name = false)
    (hreq : checkRequirements s p.requirements = none)
    (hsa : setupAfterTruthy p.setupAfter = false) :
    extend s p o true =
      ({ s with
          pluginsQueue := s.pluginsQueue ++ [⟨p, o⟩],
          pluginsQueueNames := s.pluginsQueueNames ++ [.name p.name] },
        none) := by
  unfold extend
  rw [if_neg hname, if_neg (by simp [hinst]), hreq, hsa]
  simp [nameInQueue, nameEntryEq]

/-- C4 (amended): registering a plugin whose name is empty, reserved
(`defaultPlugin`), or already installed fails with the corresponding
registration error and leaves the whole registry state untouched; but a name
that is merely queued, not installed, is not caught by the duplicate guard —
a second deferred registration of it succeeds and appends a duplicate entry
to the queue and the names array. -/
theorem extend_name_guard_amended (s : VKPlugins) (p : PluginDescriptor)
    (o : JSValue) (q : Bool) :
    ((p.name = "" ∨ p.name = "defaultPlugin" ∨ hasPlugin s p.name = true) →
      (extend s p o q).1 = s ∧
      ((extend s p o q).2 = some .mustHaveUniqueName ∨
       (extend s p o q).2 = some .alreadyInstalled)) ∧
    (¬(p.name = "" ∨ p.name = "defaultPlugin") →
      hasPlugin s p.name = false →
      nameInQueue s p.name = true →
      checkRequirements s p.requirements = none →
      setupAfterTruthy p.setupAfter = false →
      (extend s p o true).2 = none ∧
      (extend s p o true).1.pluginsQueue = s.pluginsQueue ++ [⟨p, o⟩] ∧
      (extend s p o true).1.pluginsQueueNames =
        s.pluginsQueueNames ++ [.name p.name]) := by
  constructor
  · intro h
    unfold extend
    rcases h with h1 | h2 | h3
    · rw [if_pos (Or.inl h1)]
      exact ⟨rfl, Or.inl rfl⟩
    · rw [if_pos (Or.inr h2)]
      exact ⟨rfl, Or.inl rfl⟩
    · by_cases hn : p.name = "" ∨ p.name = "defaultPlugin"
      · rw [if_pos hn]
        exact ⟨rfl, Or.inl rfl⟩
      · rw [if_neg hn, if_pos h3]
        exact ⟨rfl, Or.inr rfl⟩
  · intro hname hinst _hqueued hreq hsa
    rw [extend_append s p o hname hinst hreq hsa]
    exact ⟨rfl, rfl, rfl⟩

/-- C4 witness: an empty name fails on the empty registry with the registry
unchanged; with `B` queued but not installed, registering `B` again
succeeds. -/
theorem extend_name_guard_amended_witness :
    ((extend ⟨[], [], [], [], []⟩ ⟨"", [], none⟩ (.obj []) true).1 =
      (⟨[], [], [], [], []⟩ : VKPlugins) ∧
     ((extend ⟨[], [], [], [], []⟩ ⟨"", [], none⟩ (.obj []) true).2 =
       some .mustHaveUniqueName ∨
      (extend ⟨[], [], [], [], []⟩ ⟨"", [], none⟩ (.obj []) true).2 =
       some .alreadyInstalled)) ∧
    (extend ⟨[⟨⟨"B", [], none⟩, .obj []⟩], [.name "B"], [], [], []⟩
      ⟨"B", [], none⟩ (.obj []) true).2 = none :=
  ⟨(extend_name_guard_amended ⟨[], [], [], [], []⟩ ⟨"", [], none⟩
      (.obj []) true).1 (Or.inl rfl),
   ((extend_name_guard_amended
      ⟨[⟨⟨"B", [], none⟩, .obj []⟩], [.name "B"], [], [], []⟩
      ⟨"B", [], none⟩ (.obj []) true).2 (by decide) rfl rfl rfl rfl).1⟩

lemma pair_ite_snd {α : Type} (c1 c2 : Prop) [Decidable c1] [Decidable c2]
    (a b c : α) :
    (if c1 then (a, (none : Option ExtendError))
     else if c2 then (b, none) else (c, none)).2 = none := by
  split
  · rfl
  · split <;> rfl

/-- C7: a plugin declaring `requirements = [X]` fails registration with the
missing-dependency error (state untouched) while `X` is neither installed
nor queued; once `X` is queued (even though not yet enabled) the same
registration succeeds. -/
theorem extend_requirements_check (s : VKPlugins) (p : PluginDescriptor)
    (o : JSValue) (X : String)
    (hname : ¬(p.name = "" ∨ p.name = "defaultPlugin"))
    (hinst : hasPlugin s p.name = false)
    (hreq : p.requirements = [X]) :
    (hasPlugin s X = false → nameInQueue s X = false →
      (extend s p o true).1 = s ∧
      (extend s p o true).2 = some (.requiresPlugin X)) ∧
    (nameInQueue s X = true → (extend s p o true).2 = none) := by
  constructor
  · intro hx hq
    have hchk : checkRequirements s p.requirements = some (.requiresPlugin X) := by
      rw [hreq]
      simp [checkRequirements, hx, hq]
    unfold extend
    rw [if_neg hname, if_neg (by simp [hinst]), hchk]
    exact ⟨rfl, rfl⟩
  · intro hq
    have hchk : checkRequirements s p.requirements = none := by
      rw [hreq]
      by_cases hpx : hasPlugin s X = true <;> simp [checkRequirements, hpx, hq]
    unfold extend
    rw [if_neg hname, if_neg (by simp [hinst]), hchk]
    exact pair_ite_snd _ _ _ _ _

/-- C7 witness: with `X` queued the registration of `P` (requiring `X`)
succeeds; on the empty registry it fails with the missing-dependency
error. -/
theorem extend_requirements_check_witness :
    (extend ⟨[⟨⟨"X", [], none⟩, .obj []⟩], [.name "X"], [], [], []⟩
      ⟨"P", ["X"], none⟩ (.obj []) true).2 = none ∧
    (extend ⟨[], [], [], [], []⟩ ⟨"P", ["X"], none⟩ (.obj []) true).2 =
      some (.requiresPlugin "X") :=
  ⟨(extend_requirements_check
      ⟨[⟨⟨"X", [], none⟩, .obj []⟩], [.name "X"], [], [], []⟩
      ⟨"P", ["X"], none⟩ (.obj []) "X" (by decide) rfl rfl).2 rfl,
   ((extend_requirements_check ⟨[], [], [], [], []⟩
      ⟨"P", ["X"], none⟩ (.obj []) "X" (by decide) rfl rfl).1 rfl rfl).2⟩

lemma setup_foldl (g : JSValue) :
    ∀ (q : List QueuedPlugin) (st : VKPlugins),
      (q.foldl (setupStep g) st).pluginsQueue = st.pluginsQueue ∧
      (q.foldl (setupStep g) st).pluginsQueueNames = st.pluginsQueueNames ∧
      (q.foldl (setupStep g) st).plugins =
        st.plugins ++ q.map (fun x => x.descriptor.name) ∧
      (q.foldl (setupStep g) st).enabled =
        st.enabled ++ q.map (fun x => (x.descriptor.name, enableArg g x)) := by
  intro q
  induction q with
  | nil => intro st; simp
  | cons x t ih =>
    intro st
    have h := ih (setupStep g st x)
    simp only [List.foldl_cons, List.map_cons]
    refine ⟨?_, ?_, ?_, ?_⟩
    · rw [h.1]
      rfl
    · rw [h.2.1]
      rfl
    · rw [h.2.2.1]
      simp [setupStep, List.append_assoc]
    · rw [h.2.2.2]
      simp [setupStep, List.append_assoc]

lemma setup_eq_foldl (s : VKPlugins) (g : JSValue)
    (h : s.pluginsQueue.isEmpty = false) :
    setup s g = s.pluginsQueue.foldl (setupStep g) s := by
  unfold setup
  rw [h]
  simp

/-- C10: `setup` never consumes the plugin queue: after a call the queue is
exactly what it was, and a second call marks every queued plugin installed a
second time and invokes every queued plugin's `onEnable` a second time with
the same merged options. -/
theorem setup_does_not_consume_queue (s : VKPlugins) (g : JSValue) :
    (setup s g).pluginsQueue = s.pluginsQueue ∧
    (setup (setup s g) g).plugins =
      s.plugins ++ s.pluginsQueue.map (fun x => x.descriptor.name)
        ++ s.pluginsQueue.map (fun x => x.descriptor.name) ∧
    (setup (setup s g) g).enabled =
      s.enabled ++ s.pluginsQueue.map (fun x => (x.descriptor.name, enableArg g x))
        ++ s.pluginsQueue.map (fun x => (x.descriptor.name, enableArg g x)) := by
  by_cases hq : s.pluginsQueue.isEmpty
  · have hnil : s.pluginsQueue = [] := by
      cases hh : s.pluginsQueue with
      | nil => rfl
      | cons a t => rw [hh] at hq; cases hq
    have e0 : setup s g = s := by
      unfold setup
      rw [if_pos hq]
    rw [e0, e0, hnil]
    simp
  · have hfalse : s.pluginsQueue.isEmpty = false := Bool.eq_false_iff.mpr hq
    have h1 := setup_foldl g s.pluginsQueue s
    have e1 := setup_eq_foldl s g hfalse
    have hqueue : (setup s g).pluginsQueue = s.pluginsQueue := by
      rw [e1]; exact h1.1
    have e2 := setup_eq_foldl (setup s g) g (by rw [hqueue]; exact hfalse)
    have h2 := setup_foldl g (setup s g).pluginsQueue (setup s g)
    refine ⟨hqueue, ?_, ?_⟩
    · rw [e2, h2.2.2.1, hqueue, e1, h1.2.2.1]
    · rw [e2, h2.2.2.2, hqueue, e1, h1.2.2.2]

/-! ## Composer stack (`VK.addComposer` / `VK.use` / `VK.compose`)

`composersStack` is a `Map` from composer name to a `Composer`, itself an
ordered middleware pipeline; middlewares are opaque values of a type `M`.
Executing a composed chain is delegated to the external `middleware-io`
collaborator, so `compose` reports either the unknown-composer throw or the
pipeline it hands to that collaborator. -/

/-- The `composersStack` map, in `Map` insertion order. -/
abbrev ComposersStack (M : Type) := List (String × List M)

/-- `VK.getComposer`: `composersStack.get(name)`. -/
def getComposer (s : ComposersStack M) (n : String) : Option (List M) :=
  (s.find? (fun p => decide (p.1 = n))).map (fun p => p.2)

/-- `VK.hasComposer`: `getComposer(name) !== undefined`. -/
def hasComposer (s : ComposersStack M) (n : String) : Bool :=
  (getComposer s n).isSome

/-- `VK.addComposer`: only when the name is absent, build a composer from the
given middleware stack (in order) and store it with `Map.set`. -/
def addComposer (s : ComposersStack M) (n : String) (stack : List M) :
    ComposersStack M :=
  if hasComposer s n then s else mapSet s n stack

/-- `VK.use`: append the middleware to the existing composer, or create a
fresh composer holding just it. -/
def use (s : ComposersStack M) (n : String) (m : M) : ComposersStack M :=
  match getComposer s n with
  | some c => mapSet s n (c ++ [m])
  | none => addComposer s n [m]

/-- Outcome of `VK.compose`: the unknown-composer throw, or the middleware
pipeline handed to the external `middleware-io` run. -/
inductive ComposeOutcome (M : Type) where
  | notCreated
  | ran (pipeline : List M)

/-- `VK.compose`: throw when no composer was ever created under the name,
otherwise run the composed chain. -/
def compose (s : ComposersStack M) (n : String) : ComposeOutcome M :=
  match getComposer s n with
  | none => .notCreated
  | some c => .ran c

lemma getComposer_mapSet_self (s : ComposersStack M) (n : String)
    (v : List M) : getComposer (mapSet s n v) n = some v := by
  unfold getComposer
  rw [find?_mapSet_self]
  rfl

lemma addComposer_of_has (s : ComposersStack M) (n : String) (st : List M)
    (h : hasComposer s n = true) : addComposer s n st = s := by
  unfold addComposer
  rw [if_pos h]

lemma addComposer_of_not (s : ComposersStack M) (n : String) (st : List M)
    (h : hasComposer s n = false) : addComposer s n st = mapSet s n st := by
  unfold addComposer
  rw [if_neg (by rw [h]; exact Bool.false_ne_true)]

lemma use_of_get (s : ComposersStack M) (n : String) (m : M) (c : List M)
    (h : getComposer s n = some c) : use s n m = mapSet s n (c ++ [m]) := by
  unfold use
  rw [h]

lemma hasComposer_of_get (s : ComposersStack M) (n : String) (c : List M)
    (h : getComposer s n = some c) : hasComposer s n = true := by
  unfold hasComposer
  rw [h]
  rfl

lemma hasComposer_addComposer_self (s : ComposersStack M) (n : String)
    (st : List M) : hasComposer (addComposer s n st) n = true := by
  by_cases h : hasComposer s n = true
  · rw [addComposer_of_has s n st h]
    exact h
  · rw [addComposer_of_not s n st (Bool.eq_false_iff.mpr h)]
    exact hasComposer_of_get _ _ _ (getComposer_mapSet_self s n st)

/-- C8: creation of a composer is idempotent — a second `addComposer` under
the same name is a no-op whatever stack it carries; after creating an absent
composer and appending three middlewares interleaved with redundant creation
calls, the pipeline is exactly the three middlewares in append order; and
`compose` on a name for which no composer was ever created throws the
unknown-composer error. -/
theorem composer_registry_spec {M : Type} (s : ComposersStack M) (n : String)
    (st st' : List M) (m1 m2 m3 : M) :
    addComposer (addComposer s n st) n st' = addComposer s n st ∧
    (hasComposer s n = false →
      getComposer
        (use (use (addComposer (use (addComposer s n []) n m1) n st') n m2)
          n m3) n = some [m1, m2, m3]) ∧
    (hasComposer s n = false → compose s n = .notCreated) := by
  refine ⟨?_, ?_, ?_⟩
  · exact addComposer_of_has _ n st' (hasComposer_addComposer_self s n st)
  · intro h
    have e1 := addComposer_of_not s n [] h
    have g1 : getComposer (addComposer s n []) n = some [] := by
      rw [e1]
      exact getComposer_mapSet_self s n []
    have e2 := use_of_get (addComposer s n []) n m1 [] g1
    have g2 : getComposer (use (addComposer s n []) n m1) n = some [m1] := by
      rw [e2]
      exact getComposer_mapSet_self _ n ([] ++ [m1])
    have e3 := addComposer_of_has (use (addComposer s n []) n m1) n st'
      (hasComposer_of_get _ _ _ g2)
    have g3 : getComposer (addComposer (use (addComposer s n []) n m1) n st') n =
        some [m1] := by
      rw [e3]
      exact g2
    have e4 := use_of_get (addComposer (use (addComposer s n []) n m1) n st')
      n m2 [m1] g3
    have g4 : getComposer
        (use (addComposer (use (addComposer s n []) n m1) n st') n m2) n =
        some [m1, m2] := by
      rw [e4]
      exact getComposer_mapSet_self _ n ([m1] ++ [m2])
    have e5 := use_of_get
      (use (addComposer (use (addComposer s n []) n m1) n st') n m2)
      n m3 [m1, m2] g4
    rw [e5]
    exact getComposer_mapSet_self _ n ([m1, m2] ++ [m3])
  · intro h
    have hg : getComposer s n = none := by
      cases hc : getComposer s n with
      | none => rfl
      | some c =>
        unfold hasComposer at h
        rw [hc] at h
        cases h
    unfold compose
    rw [hg]

/-- C8 witness: on the empty stack, creating `"msg"` twice and appending
`1, 2, 3` yields the pipeline `[1, 2, 3]`, and `compose` on the empty stack
throws the unknown-composer error. -/
theorem composer_registry_spec_witness :
    getComposer
      (use (use (addComposer
        (use (addComposer ([] : ComposersStack Nat) "msg" []) "msg" 1)
        "msg" [9]) "msg" 2) "msg" 3) "msg" = some [1, 2, 3] ∧
    compose ([] : ComposersStack Nat) "msg" = .notCreated :=
  ⟨(composer_registry_spec ([] : ComposersStack Nat) "msg" [9] [9] 1 2 3).2.1 rfl,
   (composer_registry_spec ([] : ComposersStack Nat) "msg" [9] [9] 1 2 3).2.2 rfl⟩

end EasyVK
